import Mathlib

/-
Verification of the kiskord connection orchestrator
(`src/hooks/useWebRTC.ts`) against its natural-language specification.

The development shallowly embeds the orchestrator's data model and event
handlers as pure Lean functions over an explicit session state:

* the per-peer `RTCPeerConnection` objects become a `PeerMap` of `PC`
  records keyed by participant id (the JS object
  `peerConnections.current`);
* the Firestore `onSnapshot` callbacks for the roster and for the three
  signalling mailboxes (offers / answers / ICE candidates) become state
  transformers `rosterHandleDoc`, `handleOfferMsg`, `handleAnswerMsg`,
  `handleIceMsg`;
* effectful operations (publishing a document, subscribing, alerting)
  are recorded in an explicit `Effect` list;
* the connectivity grace timer of `createPeerConnection` becomes a small
  timed transition system `linkStep`;
* the audio-graph wiring of `initLocalStream` becomes an edge list
  `buildGraph` over named audio nodes.

JS strings are embedded as Lean `String` with its lexicographic order
(matching the JS `<` comparison on participant ids), JS numbers used for
audio samples/levels as `ℝ`, and nullable values as `Option`.
-/

namespace Kiskord

/-- RTCSignalingState of a peer connection (WebRTC). -/
inductive SignalingState
  | stable
  | haveLocalOffer
  | haveRemoteOffer
  | haveLocalPranswer
  | haveRemotePranswer
  | closed
deriving DecidableEq, Repr

/-- RTCPeerConnectionState (`pc.connectionState` in the source). -/
inductive ConnectionState
  | new
  | connecting
  | connected
  | disconnected
  | failed
  | closed
deriving DecidableEq, Repr

/-- Serialized session description (the `sdp` payload strings). -/
abbrev Sdp := String

/-- Serialized ICE candidate payload (`event.candidate.toJSON()`). -/
structure Candidate where
  data : String
deriving DecidableEq, Repr

/-- The observable state of one `RTCPeerConnection` that the orchestrator
reads or writes: signaling state, the two descriptions, the remote
candidates applied so far, the connectivity state. -/
structure PC where
  signalingState : SignalingState
  localDescription : Option Sdp
  remoteDescription : Option Sdp
  remoteCandidates : List Candidate
  connectionState : ConnectionState
deriving DecidableEq, Repr

/-- A fresh `new RTCPeerConnection(STUN_SERVERS)`. -/
def newPC : PC :=
  { signalingState := .stable
    localDescription := none
    remoteDescription := none
    remoteCandidates := []
    connectionState := .new }

/-- The JS object `peerConnections.current : { [key: string]: RTCPeerConnection }`,
embedded as an association list from participant id to `PC`. -/
abbrev PeerMap := List (String × PC)

/-- JS property assignment `peerConnections.current[id] = pc`:
replace the binding if the key is present, otherwise append it. -/
def setPC (m : PeerMap) (id : String) (pc : PC) : PeerMap :=
  if (m.lookup id).isSome then
    m.map (fun e => if e.1 = id then (id, pc) else e)
  else
    m ++ [(id, pc)]

/-- Keys of a peer map. -/
def keysOf (m : PeerMap) : List String := m.map Prod.fst

/-- A roster document as written by `setDoc(participantRef, …)`:
`{ displayName, isMuted }` (the `joinedAt` timestamp is irrelevant here). -/
structure RosterDoc where
  displayName : String
  isMuted : Bool
deriving DecidableEq, Repr

/-- A participant record as assembled in the roster snapshot handler. -/
structure Participant where
  id : String
  displayName : String
  isMuted : Bool
deriving DecidableEq, Repr

/-- An offer message in an `incoming_offers` mailbox.  The source field
named `from` is rendered `msgFrom` (`from` is a Lean keyword). -/
structure OfferMsg where
  mid : Nat
  msgFrom : String
  sdp : Sdp
deriving DecidableEq, Repr

/-- An answer message in an `incoming_answers` mailbox. -/
structure AnswerMsg where
  mid : Nat
  msgFrom : String
  sdp : Sdp
deriving DecidableEq, Repr

/-- An ICE-candidate message in an `incoming_ice` mailbox. -/
structure IceMsg where
  mid : Nat
  msgFrom : String
  candidate : Candidate
deriving DecidableEq, Repr

/-- Kind of a media track (`track.kind`). -/
inductive TrackKind
  | audio
  | video
deriving DecidableEq, Repr

/-- A `MediaStreamTrack` as far as the orchestrator reads it. -/
structure Track where
  kind : TrackKind
  enabled : Bool
deriving DecidableEq, Repr

/-- A `MediaStream` is its list of tracks. -/
abbrev Stream := List Track

/-- Embedding of `stream.getAudioTracks()`. -/
def getAudioTracks (s : Stream) : List Track :=
  s.filter (fun t => t.kind = TrackKind.audio)

/-- Externally visible effects performed by the orchestrator. -/
inductive Effect
  | alertDeviceError
  | publishSelf
  | subscribeRoster
  | subscribeOffers
  | subscribeAnswers
  | subscribeIce
  | publishOffer (dest : String) (sdp : Sdp)
  | publishAnswer (dest : String) (sdp : Sdp)
  | publishCandidate (dest : String) (c : Candidate)
deriving DecidableEq, Repr

/-- The orchestrator's state for one joined session (the hook's refs and
React state, plus the Firestore documents this client owns).  `roster`
mirrors the room's `participants` collection as far as this client writes
it; the three boxes mirror this client's three mailboxes. -/
structure SessState where
  selfId : String
  selfName : String
  peers : PeerMap
  participants : List Participant
  isMuted : Bool
  localStream : Option Stream
  roster : List (String × RosterDoc)
  subscribed : Bool
  offerBox : List OfferMsg
  answerBox : List AnswerMsg
  iceBox : List IceMsg
deriving DecidableEq, Repr

/-- The SDP string produced by `pc.createOffer()` on this client
(opaque payload; only its provenance matters to the protocol). -/
def offerSdpFor (selfId : String) : Sdp := "offer:" ++ selfId

/-- The SDP string produced by `pc.createAnswer()` on this client. -/
def answerSdpFor (selfId : String) : Sdp := "answer:" ++ selfId

/-- One iteration of the roster `onSnapshot` handler's `for`-loop body for
a roster document `docId` other than the participants-array bookkeeping
(which is handled by `rosterSnapshot` below):

`if (doc.id !== user.uid && !peerConnections.current[doc.id]) {
   if (user.uid < doc.id) { createPeerConnection; createOffer;
   setLocalDescription; publish offer } }`.

Creating the offer and setting it as local description leaves the fresh
connection in signaling state have-local-offer with the offer stored as
its local description. -/
def rosterHandleDoc (st : SessState) (docId : String) : SessState × List Effect :=
  if docId ≠ st.selfId ∧ (st.peers.lookup docId).isNone then
    if st.selfId < docId then
      let pc : PC := { newPC with
        signalingState := .haveLocalOffer
        localDescription := some (offerSdpFor st.selfId) }
      ({ st with peers := setPC st.peers docId pc },
       [Effect.publishOffer docId (offerSdpFor st.selfId)])
    else (st, [])
  else (st, [])

/-- The full roster `onSnapshot` handler: walk the snapshot's documents,
wiring up a connection for each new peer per `rosterHandleDoc`, and replace
the `participants` state with the snapshot's contents. -/
def rosterSnapshot (st : SessState) (docs : List (String × RosterDoc)) :
    SessState × List Effect :=
  let folded := docs.foldl
    (fun acc d =>
      let r := rosterHandleDoc acc.1 d.1
      (r.1, acc.2 ++ r.2))
    (st, ([] : List Effect))
  ({ folded.1 with
      participants := docs.map (fun d => ⟨d.1, d.2.displayName, d.2.isMuted⟩) },
   folded.2)

/-- C1 helper: does the effect list publish an offer addressed to `dest`? -/
def sendsOfferTo (fx : List Effect) (dest : String) : Bool :=
  fx.any (fun e => match e with
    | .publishOffer t _ => t = dest
    | _ => false)

/-- The `incoming_offers` `onSnapshot` handler, for one added message:

`if (!peerConnections.current[fromUserId]) { createPeerConnection;
setRemoteDescription(offer); createAnswer; setLocalDescription(answer);
publish answer } ; await deleteDoc(change.doc.ref)`.

Setting the remote offer moves the fresh connection to have-remote-offer
and setting the created answer as local description moves it to stable;
the net entry records both descriptions.  The message is deleted from the
mailbox in both branches. -/
def handleOfferMsg (st : SessState) (m : OfferMsg) : SessState × List Effect :=
  let delBox := fun (s : SessState) =>
    { s with offerBox := s.offerBox.filter (fun x => x.mid ≠ m.mid) }
  match st.peers.lookup m.msgFrom with
  | some _ => (delBox st, [])
  | none =>
    let pc : PC := { newPC with
      signalingState := .stable
      remoteDescription := some m.sdp
      localDescription := some (answerSdpFor st.selfId) }
    (delBox { st with peers := setPC st.peers m.msgFrom pc },
     [Effect.publishAnswer m.msgFrom (answerSdpFor st.selfId)])

/-- The `incoming_answers` `onSnapshot` handler, for one added message:

`const pc = peerConnections.current[fromUserId];
 if (pc && pc.signalingState === 'have-local-offer') {
   await pc.setRemoteDescription(…) } else if (pc) { log "Ignoring…" }
 await deleteDoc(change.doc.ref)`.

Applying the answer while in have-local-offer sets the remote description
and moves the signaling state to stable.  The returned flag records
whether the answer was applied; the message is deleted in every branch. -/
def handleAnswerMsg (st : SessState) (m : AnswerMsg) : SessState × Bool :=
  let delBox := fun (s : SessState) =>
    { s with answerBox := s.answerBox.filter (fun x => x.mid ≠ m.mid) }
  match st.peers.lookup m.msgFrom with
  | some pc =>
    if pc.signalingState = SignalingState.haveLocalOffer then
      let pc' : PC := { pc with
        remoteDescription := some m.sdp
        signalingState := .stable }
      (delBox { st with peers := setPC st.peers m.msgFrom pc' }, true)
    else (delBox st, false)
  | none => (delBox st, false)

/-- The `incoming_ice` `onSnapshot` handler, for one added message:

`const pc = peerConnections.current[fromUserId];
 if (pc && pc.remoteDescription) { await pc.addIceCandidate(…) }
 await deleteDoc(change.doc.ref)`.

The candidate is applied (appended to the connection's remote
candidates) only when the sender's connection exists and its remote
description is set; the message is deleted in every branch. -/
def handleIceMsg (st : SessState) (m : IceMsg) : SessState × Bool :=
  let delBox := fun (s : SessState) =>
    { s with iceBox := s.iceBox.filter (fun x => x.mid ≠ m.mid) }
  match st.peers.lookup m.msgFrom with
  | some pc =>
    if pc.remoteDescription.isSome then
      let pc' : PC := { pc with
        remoteCandidates := pc.remoteCandidates ++ [m.candidate] }
      (delBox { st with peers := setPC st.peers m.msgFrom pc' }, true)
    else (delBox st, false)
  | none => (delBox st, false)

/-- The grace delay of the connectivity-failure timer:
`setTimeout(…, 3000)` in `createPeerConnection`. -/
def graceDelayMs : Nat := 3000

/-- The per-peer view of the connectivity watchdog in
`createPeerConnection`: the connection's connectivity state, whether
`pc.close()` ran, whether the entry is still in `peerConnections.current`,
and the fire times of the pending grace timers. -/
structure LinkState where
  connectionState : ConnectionState
  closedByWatchdog : Bool
  inMap : Bool
  timers : List Nat
deriving DecidableEq, Repr

/-- Events seen by the watchdog: a `connectionstatechange` to state `s`
at time `t`, or a scheduled timer callback firing at time `t`. -/
inductive LinkEvent
  | connChange (t : Nat) (s : ConnectionState)
  | timerFire (t : Nat)
deriving DecidableEq, Repr

/-- One step of the `onconnectionstatechange` watchdog:

`if (pc.connectionState === 'failed') { setTimeout(() => {
   if (pc.connectionState === 'failed') { pc.close();
   delete peerConnections.current[targetUserId]; } }, 3000); }
 else if (pc.connectionState === 'disconnected') { /* wait */ }`.

A change to failed schedules a timer `graceDelayMs` later; every other
change (including disconnected) schedules nothing.  A scheduled timer
that fires closes and removes the connection only if connectivity is
still failed at that moment. -/
def linkStep (st : LinkState) (e : LinkEvent) : LinkState :=
  match e with
  | .connChange t s =>
    let st' := { st with connectionState := s }
    if s = ConnectionState.failed then
      { st' with timers := st'.timers ++ [t + graceDelayMs] }
    else st'
  | .timerFire t =>
    if t ∈ st.timers then
      let st' := { st with timers := st.timers.erase t }
      if st'.connectionState = ConnectionState.failed then
        { st' with closedByWatchdog := true, inMap := false }
      else st'
    else st

/-- Run the watchdog over a sequence of events. -/
def linkRun (st : LinkState) (es : List LinkEvent) : LinkState :=
  es.foldl linkStep st

/-- A healthy just-created link being watched. -/
def initLink : LinkState :=
  { connectionState := .new, closedByWatchdog := false, inMap := true, timers := [] }

/-- Embedding of `initLocalStream`: on success the microphone stream (one enabled
audio track) is returned; on failure (`catch` at the end of
`initLocalStream`: permission denied or device absent) the user is
alerted and `null` is returned.  The audio-graph construction performed
on success is modelled separately by `buildGraph`. -/
def initLocalStream (micGranted : Bool) : Option Stream × List Effect :=
  if micGranted then
    (some [{ kind := .audio, enabled := true }], [])
  else
    (none, [Effect.alertDeviceError])

/-- The pre-join session state (nothing published, nothing subscribed). -/
def initialSess (selfId selfName : String) : SessState :=
  { selfId := selfId
    selfName := selfName
    peers := []
    participants := []
    isMuted := false
    localStream := none
    roster := []
    subscribed := false
    offerBox := []
    answerBox := []
    iceBox := [] }

/-- The `join` function of the room effect:

`const stream = await initLocalStream(); if (!stream) return;` —
on microphone failure join returns before publishing the self roster
document (`setDoc(participantRef, …)`) and before registering any of the
four `onSnapshot` subscriptions.  On success it publishes self and
subscribes to roster, offers, answers and candidates. -/
def join (selfId selfName : String) (micGranted : Bool) :
    SessState × List Effect :=
  let r := initLocalStream micGranted
  match r.1 with
  | none => (initialSess selfId selfName, r.2)
  | some s =>
    ({ initialSess selfId selfName with
        localStream := some s
        subscribed := true
        roster := [(selfId, ⟨selfName, false⟩)] },
     r.2 ++ [Effect.publishSelf, Effect.subscribeRoster,
             Effect.subscribeOffers, Effect.subscribeAnswers,
             Effect.subscribeIce])

/-- Asynchronous notifications the four subscriptions can deliver. -/
inductive SessEvent
  | rosterSnap (docs : List (String × RosterDoc))
  | offerAdded (m : OfferMsg)
  | answerAdded (m : AnswerMsg)
  | iceAdded (m : IceMsg)

/-- Deliver one notification: the handlers registered by `join` run only
if the corresponding `onSnapshot` subscription was made (`subscribed`);
an unjoined session has no listeners, so events change nothing. -/
def dispatch (st : SessState) (e : SessEvent) : SessState :=
  if st.subscribed then
    match e with
    | .rosterSnap docs => (rosterSnapshot st docs).1
    | .offerAdded m => (handleOfferMsg st m).1
    | .answerAdded m => (handleAnswerMsg st m).1
    | .iceAdded m => (handleIceMsg st m).1
  else st

/-- Deliver a sequence of notifications. -/
def runEvents (st : SessState) (es : List SessEvent) : SessState :=
  es.foldl dispatch st

/-- The in-place mutation `audioTrack.enabled = !audioTrack.enabled`
on `localStreamRef.current.getAudioTracks()[0]`: the first audio track
of the stream has its enabled flag negated; every other track is left
untouched. -/
def toggleFirstAudio : Stream → Stream
  | [] => []
  | t :: ts =>
    if t.kind = TrackKind.audio then
      { t with enabled := !t.enabled } :: ts
    else
      t :: toggleFirstAudio ts

/-- Embedding of `toggleMute`:

`if (localStreamRef.current) { const audioTrack = …getAudioTracks()[0];
 if (audioTrack) { audioTrack.enabled = !audioTrack.enabled;
 setIsMuted(!audioTrack.enabled);
 await updateDoc(participantRef, { isMuted: !audioTrack.enabled }); } }`.

With no local stream or no audio track nothing happens.  Otherwise the
track's enabled flag is negated and both the React `isMuted` state and
the self roster document's `isMuted` field are set to the negation of
the track's new enabled value.  (The roster update is guarded in the
source by `roomId && user`, both always present in a joined session,
which is what `SessState` models.) -/
def toggleMute (st : SessState) : SessState :=
  match st.localStream with
  | none => st
  | some s =>
    match getAudioTracks s with
    | [] => st
    | t :: _ =>
      let newEnabled := !t.enabled
      { st with
          localStream := some (toggleFirstAudio s)
          isMuted := !newEnabled
          roster := st.roster.map (fun e =>
            if e.1 = st.selfId then (e.1, { e.2 with isMuted := !newEnabled })
            else e) }

/-- The audio quality presets (`audioQuality` in `AudioProcessingOptions`). -/
inductive AudioQuality
  | basic
  | balanced
  | professional
  | ultra
deriving DecidableEq, Repr

/-- The subset of `AudioProcessingOptions` that selects the audio-graph
topology in `initLocalStream` (`audioQuality` and `highPassFilter` are
optional fields in the source, hence `Option`). -/
structure AudioOptions where
  audioQuality : Option AudioQuality
  useRNNoise : Bool
  highPassFilter : Option Bool
  highPassCutoff : Option Nat
deriving DecidableEq, Repr

/-- The named audio nodes wired by `initLocalStream`: the microphone
source, the outbound `MediaStreamDestination`, the raw-input analyser,
the self-monitor gain / panner / hardware output
(`audioContext.destination`), the RNNoise worklet, the high-pass filter
and the dynamics compressor. -/
inductive ANode
  | source
  | destination
  | analyserMain
  | monitorGain
  | stereoPanner
  | speakers
  | rnnoise
  | hpf
  | compressor
deriving DecidableEq, Repr

/-- The wiring performed unconditionally before mode selection:
`source.connect(analyser)`, `source.connect(monitorGain)`,
`monitorGain.connect(stereoPanner)`,
`stereoPanner.connect(audioContext.destination)`. -/
def baseEdges : List (ANode × ANode) :=
  [(.source, .analyserMain), (.source, .monitorGain),
   (.monitorGain, .stereoPanner), (.stereoPanner, .speakers)]

/-- Modelled from the spec: `ProfessionalAudioChain.connectWithRNNoise`
lives in `src/utils/audioProcessor.ts`, which is not part of the
repository snapshot (only its import and call sites are).  Per spec
§4.3, enhanced mode routes the source through a high-pass stage, then
the learned noise-suppression stage, then dynamics compression, then to
the destination. -/
def proChainEdges : List (ANode × ANode) :=
  [(.source, .hpf), (.hpf, .rnnoise),
   (.rnnoise, .compressor), (.compressor, .destination)]

/-- The legacy simple chain of `initLocalStream`
(`Source -> [HPF] -> RNNoise -> Compressor -> Destination` plus the
loopback `destination.connect(monitorGain);
monitorGain.connect(audioContext.destination)`); the high-pass stage is
inserted when `highPassFilter !== false`. -/
def simpleChainEdges (opts : AudioOptions) : List (ANode × ANode) :=
  (if opts.highPassFilter ≠ some false then
     [(.source, .hpf), (.hpf, .rnnoise)]
   else
     [(.source, .rnnoise)]) ++
  [(.rnnoise, .compressor), (.compressor, .destination),
   (.destination, .monitorGain), (.monitorGain, .speakers)]

/-- The graph topology built by `initLocalStream` on its non-throwing
path, as the list of `connect` edges:

`const useRNNoiseProcessing = useRNNoise && audioQuality !== 'basic';
 if (!useRNNoiseProcessing) { source.connect(destination); … }`
— clean mode connects the microphone source directly to the outbound
destination; otherwise
`const useProfessional = audioQuality === 'professional' ||
 audioQuality === 'balanced' || audioQuality === 'ultra';`
selects the professional chain, and any other quality value the legacy
simple chain. -/
def buildGraph (opts : AudioOptions) : List (ANode × ANode) :=
  let useRNNoiseProcessing :=
    opts.useRNNoise && !(opts.audioQuality == some AudioQuality.basic)
  if !useRNNoiseProcessing then
    baseEdges ++ [(.source, .destination)]
  else
    let useProfessional :=
      (opts.audioQuality == some AudioQuality.professional) ||
      (opts.audioQuality == some AudioQuality.balanced) ||
      (opts.audioQuality == some AudioQuality.ultra)
    if useProfessional then baseEdges ++ proChainEdges
    else baseEdges ++ simpleChainEdges opts

/-- Embedding of `getAudioLevel`: from the byte samples of
`analyser.getByteTimeDomainData` (values 0–255), normalize each sample
to `(b - 128) / 128`, sum the squares, take the root mean square, and
return `Math.min(100, rms * 300)`.  JS numbers are embedded as `ℝ`. -/
noncomputable def getAudioLevel (samples : List ℕ) : ℝ :=
  let n : ℝ := samples.length
  let sumSq : ℝ :=
    (samples.map (fun b =>
      let normalized : ℝ := ((b : ℝ) - 128) / 128
      normalized * normalized)).sum
  let rms : ℝ := Real.sqrt (sumSq / n)
  min 100 (rms * 300)

/-- The `maxLevel` computation of `detectSpeaking`: fold over the
analyser entries (`uid`, time-domain samples), starting from 0, taking
the max with `getAudioLevel` only for the entry whose uid is the local
user's uid, then publish the result via `setVoiceLevel`. -/
noncomputable def computeVoiceLevel (uid : String)
    (entries : List (String × List ℕ)) : ℝ :=
  entries.foldl
    (fun acc e => if e.1 = uid then max acc (getAudioLevel e.2) else acc) 0

/-- A `List.lookup` on an association list misses exactly when the key is
absent from the key list. -/
theorem lookup_eq_none_iff (m : PeerMap) (k : String) :
    m.lookup k = none ↔ k ∉ keysOf m := by
  induction m with
  | nil => simp [List.lookup, keysOf]
  | cons e es ih =>
    by_cases h : k = e.1
    · subst h
      simp [List.lookup, keysOf]
    · simp only [List.lookup, keysOf, List.map_cons, List.mem_cons]
      rw [show (k == e.1) = false from beq_false_of_ne h]
      simp only [keysOf] at ih
      simpa [h] using ih

/-- Keys after a `setPC` on an absent key are the old keys plus the new one. -/
theorem keysOf_setPC_new (m : PeerMap) (k : String) (pc : PC)
    (h : (m.lookup k).isNone) :
    keysOf (setPC m k pc) = keysOf m ++ [k] := by
  unfold setPC
  rw [Option.isNone_iff_eq_none] at h
  simp [h, keysOf]

/-- Applying `setPC` on an absent key preserves distinctness of the keys. -/
theorem nodup_keysOf_setPC_new (m : PeerMap) (k : String) (pc : PC)
    (h : (m.lookup k).isNone) (hd : (keysOf m).Nodup) :
    (keysOf (setPC m k pc)).Nodup := by
  rw [keysOf_setPC_new m k pc h]
  have hk : k ∉ keysOf m := by
    rw [← lookup_eq_none_iff, ← Option.isNone_iff_eq_none]
    exact h
  simp [List.nodup_append, hd, hk]

/-- One roster-document step either leaves the peer map untouched or adds
a single fresh key, so it preserves distinctness of the keys. -/
theorem nodup_keysOf_rosterHandleDoc (st : SessState) (docId : String)
    (hd : (keysOf st.peers).Nodup) :
    (keysOf (rosterHandleDoc st docId).1.peers).Nodup := by
  unfold rosterHandleDoc
  split
  case isTrue h1 =>
    split
    case isTrue h2 =>
      exact nodup_keysOf_setPC_new st.peers docId _ h1.2 hd
    case isFalse h2 => exact hd
  case isFalse h1 => exact hd

/-- The state component of the roster snapshot's fold does not depend on
the accumulated effect list. -/
theorem rosterFold_fst (docs : List (String × RosterDoc)) :
    ∀ (st : SessState) (fx : List Effect),
    (docs.foldl
      (fun acc d =>
        let r := rosterHandleDoc acc.1 d.1
        (r.1, acc.2 ++ r.2))
      (st, fx)).1
    = docs.foldl (fun s d => (rosterHandleDoc s d.1).1) st := by
  induction docs with
  | nil => intro st fx; rfl
  | cons d ds ih => intro st fx; simpa using ih _ _

/-- Folding the per-document roster step over a whole snapshot preserves
distinctness of the peer-map keys. -/
theorem nodup_keysOf_rosterFoldPure (docs : List (String × RosterDoc)) :
    ∀ (st : SessState), (keysOf st.peers).Nodup →
    (keysOf (docs.foldl (fun s d => (rosterHandleDoc s d.1).1) st).peers).Nodup := by
  induction docs with
  | nil => intro st hd; exact hd
  | cons d ds ih =>
    intro st hd
    exact ih _ (nodup_keysOf_rosterHandleDoc st d.1 hd)

/-- C1: For any two distinct ids `a ≠ b`, with neither side holding a
connection for the other yet, side `a` publishes an offer to `b` exactly
when `a < b` lexicographically, side `b` publishes an offer to `a` exactly
when `b < a`, and exactly one of the two happens (never both, never
neither).  The decision depends only on the two ids, so both clients'
views of it agree. -/
theorem initiator_rule_total
    (a b : String) (stA stB : SessState)
    (hA : stA.selfId = a) (hB : stB.selfId = b) (hab : a ≠ b)
    (hAfresh : (stA.peers.lookup b).isNone)
    (hBfresh : (stB.peers.lookup a).isNone) :
    sendsOfferTo (rosterHandleDoc stA b).2 b = decide (a < b) ∧
    sendsOfferTo (rosterHandleDoc stB a).2 a = decide (b < a) ∧
    sendsOfferTo (rosterHandleDoc stA b).2 b
      ≠ sendsOfferTo (rosterHandleDoc stB a).2 a := by
  have hA' : sendsOfferTo (rosterHandleDoc stA b).2 b = decide (a < b) := by
    unfold rosterHandleDoc
    rw [hA]
    rcases lt_or_le a b with h | h
    · simp [hab.symm, hAfresh, h, sendsOfferTo]
    · have : ¬ a < b := not_lt_of_le h
      simp [hab.symm, hAfresh, this, sendsOfferTo]
  have hB' : sendsOfferTo (rosterHandleDoc stB a).2 a = decide (b < a) := by
    unfold rosterHandleDoc
    rw [hB]
    rcases lt_or_le b a with h | h
    · simp [hab, hBfresh, h, sendsOfferTo]
    · have : ¬ b < a := not_lt_of_le h
      simp [hab, hBfresh, this, sendsOfferTo]
  refine ⟨hA', hB', ?_⟩
  rw [hA', hB']
  rcases lt_trichotomy a b with h | h | h
  · simp [h, not_lt_of_lt h]
  · exact absurd h hab
  · simp [h, not_lt_of_lt h]

/-- Witness for C1 at the concrete ids "alice" and "bob". -/
theorem initiator_rule_total_witness :
    let stA : SessState :=
      ⟨"alice", "Alice", [], [], false, none, [], true, [], [], []⟩
    let stB : SessState :=
      ⟨"bob", "Bob", [], [], false, none, [], true, [], [], []⟩
    sendsOfferTo (rosterHandleDoc stA "bob").2 "bob" = decide ("alice" < "bob") ∧
    sendsOfferTo (rosterHandleDoc stB "alice").2 "alice" = decide ("bob" < "alice") ∧
    sendsOfferTo (rosterHandleDoc stA "bob").2 "bob"
      ≠ sendsOfferTo (rosterHandleDoc stB "alice").2 "alice" :=
  initiator_rule_total "alice" "bob" _ _ rfl rfl (by decide)
    (by decide) (by decide)

/-- C2: PeerLink uniqueness and idempotent creation.  (a) If a connection
for `docId` already exists, the roster step for `docId` leaves the peer
map unchanged — observing the same roster-add twice never creates a
second connection.  (b) If a connection for the offer's sender already
exists, the offer handler leaves the peer map unchanged.  (c) Processing
a whole roster snapshot preserves distinctness of the peer-map keys, and
(d) so does the offer handler: at most one connection per remote id. -/
theorem peerlink_unique_idempotent
    (st : SessState) (docId : String) (m : OfferMsg)
    (docs : List (String × RosterDoc)) :
    ((st.peers.lookup docId).isSome →
      (rosterHandleDoc st docId).1.peers = st.peers) ∧
    ((st.peers.lookup m.msgFrom).isSome →
      (handleOfferMsg st m).1.peers = st.peers) ∧
    ((keysOf st.peers).Nodup →
      (keysOf (rosterSnapshot st docs).1.peers).Nodup) ∧
    ((keysOf st.peers).Nodup →
      (keysOf (handleOfferMsg st m).1.peers).Nodup) := by
  refine ⟨?_, ?_, ?_, ?_⟩
  · intro h
    obtain ⟨pc0, hpc⟩ := Option.isSome_iff_exists.mp h
    simp [rosterHandleDoc, hpc]
  · intro h
    obtain ⟨pc0, hpc⟩ := Option.isSome_iff_exists.mp h
    simp [handleOfferMsg, hpc]
  · intro hd
    have hfold := rosterFold_fst docs st []
    simp only [rosterSnapshot]
    rw [hfold]
    exact nodup_keysOf_rosterFoldPure docs st hd
  · intro hd
    rcases hpc : st.peers.lookup m.msgFrom with _ | pc0
    · simp only [handleOfferMsg, hpc]
      exact nodup_keysOf_setPC_new st.peers m.msgFrom _
        (by rw [Option.isNone_iff_eq_none]; exact hpc) hd
    · simp [handleOfferMsg, hpc, hd]

/-- Witness for C2 at a concrete state that already links peer "bob". -/
theorem peerlink_unique_idempotent_witness :
    let stW : SessState :=
      ⟨"alice", "Alice", [("bob", newPC)], [], false, none, [], true, [], [], []⟩
    let mW : OfferMsg := ⟨0, "bob", "sdp0"⟩
    let docsW : List (String × RosterDoc) := [("bob", ⟨"Bob", false⟩)]
    (rosterHandleDoc stW "bob").1.peers = stW.peers ∧
    (handleOfferMsg stW mW).1.peers = stW.peers ∧
    (keysOf (rosterSnapshot stW docsW).1.peers).Nodup ∧
    (keysOf (handleOfferMsg stW mW).1.peers).Nodup := by
  intro stW mW docsW
  have h := peerlink_unique_idempotent stW "bob" mW docsW
  exact ⟨h.1 (by decide), h.2.1 (by decide),
         h.2.2.1 (by decide), h.2.2.2 (by decide)⟩

/-- C3: Stale-answer rejection.  An incoming answer is applied exactly
when the sender's connection exists and its signaling state is exactly
have-local-offer; in every other case the peer map is untouched; the
answer message is deleted from the mailbox regardless; and when it is
applied, the only change is that the sender's connection gains the
answer as remote description (moving to stable). -/
theorem stale_answer_rejected (st : SessState) (m : AnswerMsg) :
    ((handleAnswerMsg st m).2 = true ↔
      ∃ pc, st.peers.lookup m.msgFrom = some pc ∧
            pc.signalingState = SignalingState.haveLocalOffer) ∧
    ((handleAnswerMsg st m).2 = false →
      (handleAnswerMsg st m).1.peers = st.peers) ∧
    (handleAnswerMsg st m).1.answerBox
      = st.answerBox.filter (fun x => x.mid ≠ m.mid) ∧
    (∀ pc, st.peers.lookup m.msgFrom = some pc →
      pc.signalingState = SignalingState.haveLocalOffer →
      (handleAnswerMsg st m).1.peers
        = setPC st.peers m.msgFrom
            { pc with remoteDescription := some m.sdp
                      signalingState := .stable }) := by
  rcases hpc : st.peers.lookup m.msgFrom with _ | pc
  · simp [handleAnswerMsg, hpc]
  · by_cases hs : pc.signalingState = SignalingState.haveLocalOffer
    · simp [handleAnswerMsg, hpc, hs]
    · simp [handleAnswerMsg, hpc, hs]

/-- Witness for C3: a concrete applied answer and a concrete stale one. -/
theorem stale_answer_rejected_witness :
    let pcOff : PC := { newPC with
      signalingState := .haveLocalOffer
      localDescription := some "o" }
    let stA : SessState :=
      ⟨"alice", "Alice", [("bob", pcOff)], [], false, none, [], true,
       [], [⟨5, "bob", "asdp"⟩], []⟩
    let mA : AnswerMsg := ⟨5, "bob", "asdp"⟩
    let stS : SessState :=
      ⟨"alice", "Alice", [("bob", newPC)], [], false, none, [], true,
       [], [⟨6, "bob", "asdp2"⟩], []⟩
    let mS : AnswerMsg := ⟨6, "bob", "asdp2"⟩
    (handleAnswerMsg stA mA).2 = true ∧
    (handleAnswerMsg stA mA).1.peers
      = setPC stA.peers "bob"
          { pcOff with remoteDescription := some "asdp"
                       signalingState := .stable } ∧
    (handleAnswerMsg stS mS).2 = false ∧
    (handleAnswerMsg stS mS).1.peers = stS.peers ∧
    (handleAnswerMsg stS mS).1.answerBox
      = stS.answerBox.filter (fun x => x.mid ≠ mS.mid) := by
  intro pcOff stA mA stS mS
  have h1 := stale_answer_rejected stA mA
  have h2 := stale_answer_rejected stS mS
  exact ⟨h1.1.mpr ⟨pcOff, rfl, rfl⟩, h1.2.2.2 pcOff rfl rfl,
         by decide, h2.2.1 (by decide), h2.2.2.1⟩

/-- C4: Candidate gating.  An incoming ICE candidate is applied exactly
when the sender's connection exists and its remote description is
already set; otherwise the peer map is untouched (the candidate is
dropped, never applied against a half-initialized transport); the
message is deleted from the mailbox after the attempt in either case;
and when applied, the only change is the candidate appended to the
sender's connection. -/
theorem candidate_gating (st : SessState) (m : IceMsg) :
    ((handleIceMsg st m).2 = true ↔
      ∃ pc, st.peers.lookup m.msgFrom = some pc ∧
            pc.remoteDescription.isSome) ∧
    ((handleIceMsg st m).2 = false →
      (handleIceMsg st m).1.peers = st.peers) ∧
    (handleIceMsg st m).1.iceBox
      = st.iceBox.filter (fun x => x.mid ≠ m.mid) ∧
    (∀ pc, st.peers.lookup m.msgFrom = some pc →
      pc.remoteDescription.isSome →
      (handleIceMsg st m).1.peers
        = setPC st.peers m.msgFrom
            { pc with
                remoteCandidates := pc.remoteCandidates ++ [m.candidate] }) := by
  rcases hpc : st.peers.lookup m.msgFrom with _ | pc
  · simp [handleIceMsg, hpc]
  · by_cases hr : pc.remoteDescription.isSome
    · simp [handleIceMsg, hpc, hr]
    · simp [handleIceMsg, hpc, hr]

/-- Witness for C4: a concrete applied candidate and a concrete dropped
one (remote description not yet set). -/
theorem candidate_gating_witness :
    let pcRd : PC := { newPC with remoteDescription := some "r" }
    let stA : SessState :=
      ⟨"alice", "Alice", [("bob", pcRd)], [], false, none, [], true,
       [], [], [⟨7, "bob", ⟨"cand1"⟩⟩]⟩
    let mA : IceMsg := ⟨7, "bob", ⟨"cand1"⟩⟩
    let stD : SessState :=
      ⟨"alice", "Alice", [("bob", newPC)], [], false, none, [], true,
       [], [], [⟨8, "bob", ⟨"cand2"⟩⟩]⟩
    let mD : IceMsg := ⟨8, "bob", ⟨"cand2"⟩⟩
    (handleIceMsg stA mA).2 = true ∧
    (handleIceMsg stA mA).1.peers
      = setPC stA.peers "bob"
          { pcRd with remoteCandidates := [⟨"cand1"⟩] } ∧
    (handleIceMsg stD mD).2 = false ∧
    (handleIceMsg stD mD).1.peers = stD.peers ∧
    (handleIceMsg stD mD).1.iceBox
      = stD.iceBox.filter (fun x => x.mid ≠ mD.mid) := by
  intro pcRd stA mA stD mD
  have h1 := candidate_gating stA mA
  have h2 := candidate_gating stD mD
  exact ⟨h1.1.mpr ⟨pcRd, rfl, rfl⟩, h1.2.2.2 pcRd rfl rfl,
         by decide, h2.2.1 (by decide), h2.2.2.1⟩

/-- C9: Unknown-sender message safety.  An answer or ICE candidate whose
sender has no connection in the peer map is deleted from the mailbox
without applying anything: the handlers are total functions whose
apply branch is unreachable when the lookup misses, so the peer map is
returned unchanged and no description or candidate is applied. -/
theorem unknown_sender_safe (st : SessState) (am : AnswerMsg) (im : IceMsg) :
    (st.peers.lookup am.msgFrom = none →
      (handleAnswerMsg st am).2 = false ∧
      (handleAnswerMsg st am).1.peers = st.peers ∧
      (handleAnswerMsg st am).1.answerBox
        = st.answerBox.filter (fun x => x.mid ≠ am.mid)) ∧
    (st.peers.lookup im.msgFrom = none →
      (handleIceMsg st im).2 = false ∧
      (handleIceMsg st im).1.peers = st.peers ∧
      (handleIceMsg st im).1.iceBox
        = st.iceBox.filter (fun x => x.mid ≠ im.mid)) := by
  constructor
  · intro hpc
    simp [handleAnswerMsg, hpc]
  · intro hpc
    simp [handleIceMsg, hpc]

/-- Witness for C9 at a concrete state with no connection for "carol". -/
theorem unknown_sender_safe_witness :
    let stW : SessState :=
      ⟨"alice", "Alice", [("bob", newPC)], [], false, none, [], true,
       [], [⟨9, "carol", "x"⟩], [⟨10, "carol", ⟨"y"⟩⟩]⟩
    let am : AnswerMsg := ⟨9, "carol", "x"⟩
    let im : IceMsg := ⟨10, "carol", ⟨"y"⟩⟩
    ((handleAnswerMsg stW am).2 = false ∧
     (handleAnswerMsg stW am).1.peers = stW.peers ∧
     (handleAnswerMsg stW am).1.answerBox
       = stW.answerBox.filter (fun x => x.mid ≠ am.mid)) ∧
    ((handleIceMsg stW im).2 = false ∧
     (handleIceMsg stW im).1.peers = stW.peers ∧
     (handleIceMsg stW im).1.iceBox
       = stW.iceBox.filter (fun x => x.mid ≠ im.mid)) := by
  intro stW am im
  have h := unknown_sender_safe stW am im
  exact ⟨h.1 (by decide), h.2 (by decide)⟩

/-- C5: Connectivity grace period.  (a) A change to failed at time `t`
schedules exactly one new grace timer, due `graceDelayMs = 3000`
milliseconds later, and does not itself close or remove the link.
(b) A change to disconnected neither schedules a timer nor closes or
removes the link.  (c) A grace timer that fires while connectivity is no
longer failed (the failure recovered within the grace period) leaves the
link open and in the map.  (d) A grace timer that fires while
connectivity is still failed closes the link and removes it from the
peer map. -/
theorem grace_period_spec (st : LinkState) (t : Nat) :
    graceDelayMs = 3000 ∧
    ((linkStep st (.connChange t .failed)).timers
        = st.timers ++ [t + 3000] ∧
     (linkStep st (.connChange t .failed)).closedByWatchdog
        = st.closedByWatchdog ∧
     (linkStep st (.connChange t .failed)).inMap = st.inMap) ∧
    ((linkStep st (.connChange t .disconnected)).timers = st.timers ∧
     (linkStep st (.connChange t .disconnected)).closedByWatchdog
        = st.closedByWatchdog ∧
     (linkStep st (.connChange t .disconnected)).inMap = st.inMap) ∧
    (st.connectionState ≠ ConnectionState.failed →
      (linkStep st (.timerFire t)).closedByWatchdog = st.closedByWatchdog ∧
      (linkStep st (.timerFire t)).inMap = st.inMap) ∧
    (t ∈ st.timers → st.connectionState = ConnectionState.failed →
      (linkStep st (.timerFire t)).closedByWatchdog = true ∧
      (linkStep st (.timerFire t)).inMap = false) := by
  refine ⟨rfl, ⟨rfl, rfl, rfl⟩, ⟨?_, rfl, rfl⟩, ?_, ?_⟩
  · simp [linkStep]
  · intro hne
    by_cases hmem : t ∈ st.timers
    · simp [linkStep, hmem, hne]
    · simp [linkStep, hmem]
  · intro hmem hf
    simp [linkStep, hmem, hf]

/-- Witness for C5: a link that failed at time 0 with its grace timer
pending, and the same fire event after recovery versus while still
failed. -/
theorem grace_period_spec_witness :
    let stF : LinkState :=
      { connectionState := .failed, closedByWatchdog := false,
        inMap := true, timers := [3000] }
    let stR : LinkState :=
      { connectionState := .connected, closedByWatchdog := false,
        inMap := true, timers := [3000] }
    ((linkStep stR (.timerFire 3000)).closedByWatchdog
        = stR.closedByWatchdog ∧
     (linkStep stR (.timerFire 3000)).inMap = stR.inMap) ∧
    ((linkStep stF (.timerFire 3000)).closedByWatchdog = true ∧
     (linkStep stF (.timerFire 3000)).inMap = false) := by
  intro stF stR
  have hR := grace_period_spec stR 3000
  have hF := grace_period_spec stF 3000
  exact ⟨hR.2.2.2.1 (by decide), hF.2.2.2.2 (by decide) (by decide)⟩

/-- Spec scenario: connectivity flaps to failed at time 0 and recovers at
time 2000 (within the 3-second grace period); when the timer fires at
time 3000 the link survives. -/
theorem grace_scenario_recovers :
    (linkRun initLink
      [.connChange 0 .failed, .connChange 2000 .connected,
       .timerFire 3000]).inMap = true ∧
    (linkRun initLink
      [.connChange 0 .failed, .connChange 2000 .connected,
       .timerFire 3000]).closedByWatchdog = false := by
  decide

/-- Spec scenario: connectivity fails at time 0 and is still failed when
the grace timer fires at time 3000; the link is closed and removed. -/
theorem grace_scenario_expires :
    (linkRun initLink [.connChange 0 .failed, .timerFire 3000]).inMap
      = false ∧
    (linkRun initLink
      [.connChange 0 .failed, .timerFire 3000]).closedByWatchdog = true := by
  decide

/-- C6: Microphone denial atomicity.  When microphone acquisition fails,
`join` surfaces the device error (the alert effect) and performs no
further join step: the self roster entry is never published, none of the
four mailbox/roster subscriptions is made, the roster stays empty, and —
since no subscription exists — no sequence of later notifications can
ever create a peer connection. -/
theorem mic_denied_atomic (selfId selfName : String) (es : List SessEvent) :
    (join selfId selfName false).2 = [Effect.alertDeviceError] ∧
    Effect.publishSelf ∉ (join selfId selfName false).2 ∧
    Effect.subscribeRoster ∉ (join selfId selfName false).2 ∧
    Effect.subscribeOffers ∉ (join selfId selfName false).2 ∧
    Effect.subscribeAnswers ∉ (join selfId selfName false).2 ∧
    Effect.subscribeIce ∉ (join selfId selfName false).2 ∧
    (join selfId selfName false).1.roster = [] ∧
    (runEvents (join selfId selfName false).1 es).peers = [] := by
  have hjoin : join selfId selfName false
      = (initialSess selfId selfName, [Effect.alertDeviceError]) := rfl
  have hrun : ∀ (es' : List SessEvent) (st : SessState),
      st.subscribed = false → runEvents st es' = st := by
    intro es'
    induction es' with
    | nil => intro st _; rfl
    | cons e es'' ih =>
      intro st hsub
      have hstep : dispatch st e = st := by
        simp [dispatch, hsub]
      simpa [runEvents, hstep] using ih st hsub
  rw [hjoin]
  refine ⟨rfl, by simp, by simp, by simp, by simp, by simp, rfl, ?_⟩
  rw [hrun es (initialSess selfId selfName) rfl]
  rfl

/-- Toggling the first audio track toggles the head of the audio-track
list and leaves the rest of it unchanged. -/
theorem getAudioTracks_toggleFirstAudio (s : Stream) :
    getAudioTracks (toggleFirstAudio s)
      = match getAudioTracks s with
        | [] => []
        | t :: ts => { t with enabled := !t.enabled } :: ts := by
  induction s with
  | nil => rfl
  | cons t ts ih =>
    by_cases hk : t.kind = TrackKind.audio
    · simp [toggleFirstAudio, getAudioTracks, hk]
    · simp only [toggleFirstAudio, hk, if_false, getAudioTracks,
        List.filter_cons]
      simp only [getAudioTracks] at ih
      simp [hk, ih]

/-- Toggling the first audio track leaves every video track unchanged. -/
theorem videoTracks_toggleFirstAudio (s : Stream) :
    (toggleFirstAudio s).filter (fun t => t.kind = TrackKind.video)
      = s.filter (fun t => t.kind = TrackKind.video) := by
  induction s with
  | nil => rfl
  | cons t ts ih =>
    by_cases hk : t.kind = TrackKind.audio
    · have hv : ¬ t.kind = TrackKind.video := by
        rw [hk]; intro hcontra; cases hcontra
      simp [toggleFirstAudio, hk, hv]
    · simp [toggleFirstAudio, hk, List.filter_cons, ih]

/-- C10: toggleMute postcondition and no-op guard.  With no local stream
or no local audio track, `toggleMute` changes nothing.  Otherwise it
negates the first audio track's enabled flag, sets both the local
`isMuted` state and the self roster record's `isMuted` field to the
negation of the track's new enabled value, leaves the remaining audio
tracks and all video tracks unchanged, and leaves every other state
component (peers, participants, ids, subscriptions, mailboxes)
unchanged. -/
theorem toggleMute_spec (st : SessState) :
    (st.localStream = none → toggleMute st = st) ∧
    (∀ s, st.localStream = some s → getAudioTracks s = [] →
      toggleMute st = st) ∧
    (∀ s t ts, st.localStream = some s → getAudioTracks s = t :: ts →
      (toggleMute st).isMuted = !(!t.enabled) ∧
      (toggleMute st).localStream = some (toggleFirstAudio s) ∧
      getAudioTracks (toggleFirstAudio s)
        = { t with enabled := !t.enabled } :: ts ∧
      (toggleFirstAudio s).filter (fun x => x.kind = TrackKind.video)
        = s.filter (fun x => x.kind = TrackKind.video) ∧
      (toggleMute st).roster = st.roster.map (fun e =>
        if e.1 = st.selfId then (e.1, { e.2 with isMuted := !(!t.enabled) })
        else e) ∧
      (toggleMute st).peers = st.peers ∧
      (toggleMute st).participants = st.participants ∧
      (toggleMute st).selfId = st.selfId ∧
      (toggleMute st).selfName = st.selfName ∧
      (toggleMute st).subscribed = st.subscribed ∧
      (toggleMute st).offerBox = st.offerBox ∧
      (toggleMute st).answerBox = st.answerBox ∧
      (toggleMute st).iceBox = st.iceBox) := by
  refine ⟨?_, ?_, ?_⟩
  · intro h
    simp [toggleMute, h]
  · intro s hs hempty
    simp [toggleMute, hs, hempty]
  · intro s t ts hs hts
    have hg := getAudioTracks_toggleFirstAudio s
    rw [hts] at hg
    have hv := videoTracks_toggleFirstAudio s
    refine ⟨?_, ?_, hg, hv, ?_, ?_, ?_, ?_, ?_, ?_, ?_, ?_, ?_⟩ <;>
      simp [toggleMute, hs, hts]

/-- Witness for C10: a concrete enabled-track state and a concrete
stream-less state. -/
theorem toggleMute_spec_witness :
    let trk : Track := { kind := .audio, enabled := true }
    let stT : SessState :=
      ⟨"alice", "Alice", [], [], false, some [trk],
       [("alice", ⟨"Alice", false⟩)], true, [], [], []⟩
    let stN : SessState :=
      ⟨"alice", "Alice", [], [], false, none, [], true, [], [], []⟩
    toggleMute stN = stN ∧
    (toggleMute stT).isMuted = !(!trk.enabled) ∧
    (toggleMute stT).localStream = some (toggleFirstAudio [trk]) ∧
    (toggleMute stT).roster = stT.roster.map (fun e =>
      if e.1 = stT.selfId then (e.1, { e.2 with isMuted := !(!trk.enabled) })
      else e) ∧
    (toggleMute stT).peers = stT.peers := by
  intro trk stT stN
  have hN := (toggleMute_spec stN).1 rfl
  have hT := (toggleMute_spec stT).2.2 [trk] trk [] rfl rfl
  exact ⟨hN, hT.1, hT.2.1, hT.2.2.2.2.1, hT.2.2.2.2.2.1⟩

/-- C7 counterexample: with the quality preset balanced but the RNNoise
engine flag off (reachable in the app: toggling "AI Noise Suppression"
off in advanced settings leaves `audioQuality` at balanced), the build
takes the clean-mode branch: the source is connected directly to the
destination and no noise-suppression or compression stage is wired, so
quality alone does not determine the enhanced topology. -/
theorem enhanced_topology_counterexample :
    (ANode.source, ANode.destination) ∈ buildGraph
      ⟨some AudioQuality.balanced, false, some true, some 80⟩ ∧
    (ANode.source, ANode.rnnoise) ∉ buildGraph
      ⟨some AudioQuality.balanced, false, some true, some 80⟩ ∧
    (ANode.hpf, ANode.rnnoise) ∉ buildGraph
      ⟨some AudioQuality.balanced, false, some true, some 80⟩ ∧
    (ANode.rnnoise, ANode.compressor) ∉ buildGraph
      ⟨some AudioQuality.balanced, false, some true, some 80⟩ := by
  decide

/-- C7 (amended): for every audio-graph build with the RNNoise engine
enabled and quality preset balanced, professional or ultra, the source
is routed into the noise-suppression stage (optionally through the
high-pass stage) and on through dynamics compression into the outbound
destination, and is not connected directly to the destination. -/
theorem enhanced_topology_amended (opts : AudioOptions)
    (hrn : opts.useRNNoise = true)
    (hq : opts.audioQuality = some AudioQuality.balanced ∨
          opts.audioQuality = some AudioQuality.professional ∨
          opts.audioQuality = some AudioQuality.ultra) :
    ((ANode.source, ANode.rnnoise) ∈ buildGraph opts ∨
     ((ANode.source, ANode.hpf) ∈ buildGraph opts ∧
      (ANode.hpf, ANode.rnnoise) ∈ buildGraph opts)) ∧
    (ANode.rnnoise, ANode.compressor) ∈ buildGraph opts ∧
    (ANode.compressor, ANode.destination) ∈ buildGraph opts ∧
    (ANode.source, ANode.destination) ∉ buildGraph opts := by
  rcases hq with h | h | h <;>
    simp [buildGraph, h, hrn, baseEdges, proChainEdges]

/-- Witness for C7's amended theorem at concrete balanced options with
RNNoise enabled. -/
theorem enhanced_topology_amended_witness :
    ((ANode.source, ANode.rnnoise) ∈ buildGraph
        ⟨some AudioQuality.balanced, true, some true, some 80⟩ ∨
     ((ANode.source, ANode.hpf) ∈ buildGraph
        ⟨some AudioQuality.balanced, true, some true, some 80⟩ ∧
      (ANode.hpf, ANode.rnnoise) ∈ buildGraph
        ⟨some AudioQuality.balanced, true, some true, some 80⟩)) ∧
    (ANode.rnnoise, ANode.compressor) ∈ buildGraph
      ⟨some AudioQuality.balanced, true, some true, some 80⟩ ∧
    (ANode.compressor, ANode.destination) ∈ buildGraph
      ⟨some AudioQuality.balanced, true, some true, some 80⟩ ∧
    (ANode.source, ANode.destination) ∉ buildGraph
      ⟨some AudioQuality.balanced, true, some true, some 80⟩ :=
  enhanced_topology_amended ⟨some AudioQuality.balanced, true, some true, some 80⟩
    rfl (Or.inl rfl)

/-- The published level is never negative. -/
theorem getAudioLevel_nonneg (samples : List ℕ) :
    0 ≤ getAudioLevel samples := by
  unfold getAudioLevel
  refine le_min (by norm_num) ?_
  exact mul_nonneg (Real.sqrt_nonneg _) (by norm_num)

/-- The published level never exceeds 100. -/
theorem getAudioLevel_le_100 (samples : List ℕ) :
    getAudioLevel samples ≤ 100 :=
  min_le_left _ _

/-- Bounds for the `detectSpeaking` fold from any accumulator within
range. -/
theorem voiceFold_bounds (uid : String) (entries : List (String × List ℕ)) :
    ∀ acc : ℝ, 0 ≤ acc → acc ≤ 100 →
      0 ≤ entries.foldl
            (fun a e => if e.1 = uid then max a (getAudioLevel e.2) else a)
            acc ∧
      entries.foldl
        (fun a e => if e.1 = uid then max a (getAudioLevel e.2) else a)
        acc ≤ 100 := by
  induction entries with
  | nil => intro acc h0 h100; exact ⟨h0, h100⟩
  | cons e es ih =>
    intro acc h0 h100
    by_cases he : e.1 = uid
    · simp only [List.foldl_cons, he, if_pos]
      exact ih _ (le_trans h0 (le_max_left _ _))
        (max_le h100 (getAudioLevel_le_100 e.2))
    · simp only [List.foldl_cons, he, if_neg, not_false_iff]
      exact ih acc h0 h100

/-- The `detectSpeaking` fold ignores every entry whose uid is not the
local user's. -/
theorem voiceFold_filter (uid : String) (entries : List (String × List ℕ)) :
    ∀ acc : ℝ,
      entries.foldl
        (fun a e => if e.1 = uid then max a (getAudioLevel e.2) else a) acc
      = (entries.filter (fun e => e.1 == uid)).foldl
          (fun a e => if e.1 = uid then max a (getAudioLevel e.2) else a)
          acc := by
  induction entries with
  | nil => intro acc; rfl
  | cons e es ih =>
    intro acc
    by_cases he : e.1 = uid
    · simp only [List.foldl_cons, List.filter_cons, he, beq_self_eq_true,
        if_true, if_pos]
      exact ih _
    · have hb : (e.1 == uid) = false := beq_eq_false_iff_ne.mpr he
      simp only [List.foldl_cons, List.filter_cons, hb, he, if_neg,
        not_false_iff, Bool.false_eq_true, if_false]
      exact ih acc

/-- C8: Voice level bounds and source.  The level computed for any
sample buffer is the clamped scaled RMS and always lies between 0 and
100; the level published on a monitor tick lies between 0 and 100; and
it depends only on the entries of the local participant — replacing the
analyser map by its restriction to the local uid (removing every remote
analyser) leaves the published level unchanged. -/
theorem voice_level_bounds_local (uid : String)
    (entries : List (String × List ℕ)) (samples : List ℕ) :
    (0 ≤ getAudioLevel samples ∧ getAudioLevel samples ≤ 100) ∧
    (0 ≤ computeVoiceLevel uid entries ∧
     computeVoiceLevel uid entries ≤ 100) ∧
    computeVoiceLevel uid entries
      = computeVoiceLevel uid (entries.filter (fun e => e.1 == uid)) := by
  refine ⟨⟨getAudioLevel_nonneg samples, getAudioLevel_le_100 samples⟩, ?_, ?_⟩
  · exact voiceFold_bounds uid entries 0 le_rfl (by norm_num)
  · exact voiceFold_filter uid entries 0

/-- Witness for C6 at a concrete denied join followed by a concrete
roster notification. -/
theorem mic_denied_atomic_witness :
    (join "alice" "Alice" false).2 = [Effect.alertDeviceError] ∧
    (runEvents (join "alice" "Alice" false).1
      [SessEvent.rosterSnap [("bob", ⟨"Bob", false⟩)]]).peers = [] := by
  have h := mic_denied_atomic "alice" "Alice"
    [SessEvent.rosterSnap [("bob", ⟨"Bob", false⟩)]]
  exact ⟨h.1, h.2.2.2.2.2.2.2⟩

end Kiskord
